import Mathlib

set_option maxRecDepth 100000

/-!
Verification of the `markup.py` markdown-to-HTML converter.

The source program is a cascade of `re.sub` passes over a single document
string, together with a blob-preservation list (`preserved_blobs`) resolved
at the end via Python `str.format`.  Every regex rule of the source is
embedded as a specialised left-to-right scanner with Python `re` semantics:
leftmost match, replacement text never rescanned within a pass, lookbehind
examined on the original text (tracked as the last original character
consumed), lazy `+?` as minimal match, greedy character classes as
`takeWhile`.  Python string primitives used by the program (`str.strip`,
`str.splitlines`, `str.lower`, `str.translate`, `str.format`) are embedded
alongside.
-/

/-- Decidable equality for `Except`, used to evaluate the pipeline's results
in closed theorems. -/
instance {ε α : Type} [DecidableEq ε] [DecidableEq α] : DecidableEq (Except ε α) :=
  fun a b =>
    match a, b with
    | .error x, .error y =>
      if h : x = y then .isTrue (by rw [h]) else .isFalse (by intro hc; cases hc; exact h rfl)
    | .ok x, .ok y =>
      if h : x = y then .isTrue (by rw [h]) else .isFalse (by intro hc; cases hc; exact h rfl)
    | .error _, .ok _ => .isFalse (by intro hc; cases hc)
    | .ok _, .error _ => .isFalse (by intro hc; cases hc)

namespace Markup

/-- The `\x7b` character, Python's format placeholder opener. -/
def lbrace : Char := Char.ofNat 123

/-- The `\x7d` character, Python's format placeholder closer. -/
def rbrace : Char := Char.ofNat 125

/-- Python whitespace for `str.strip` and the regex class `\s` (ASCII part):
space, tab, newline, carriage return, vertical tab, form feed. -/
def isPyWs (c : Char) : Bool :=
  c = ' ' || c = '\t' || c = '\n' || c = '\r' || c = Char.ofNat 11 || c = Char.ofNat 12

/-- Python `str.strip()`: remove leading and trailing whitespace. -/
def pyStrip (l : List Char) : List Char :=
  ((l.dropWhile isPyWs).reverse.dropWhile isPyWs).reverse

/-- Helper for `pySplitlines`: accumulate the current line. -/
def pySplitlinesGo : List Char → List Char → List (List Char)
  | acc, [] => [acc.reverse]
  | acc, '\n' :: [] => [acc.reverse]
  | acc, '\n' :: t => acc.reverse :: pySplitlinesGo [] t
  | acc, c :: t => pySplitlinesGo (c :: acc) t

/-- Python `str.splitlines()` (newline-only, which is the only line break
occurring in this pipeline): no entry for a trailing newline, empty string
gives the empty list. -/
def pySplitlines (l : List Char) : List (List Char) :=
  if l.isEmpty then [] else pySplitlinesGo [] l

/-- Python `str.lower` on the ASCII range. -/
def pyLower (s : String) : String := String.mk (s.toList.map Char.toLower)

/-- Python `str.endswith(tuple)`: true when any of the suffixes matches. -/
def endsWithAny (s : String) (suffixes : List String) : Bool :=
  suffixes.any (fun suf => suf.toList.isSuffixOf s.toList)

/-- Numeric value of a digit string (as Python `int` of a field name). -/
def digitsToNat (ds : List Char) : Nat :=
  ds.foldl (fun a c => a * 10 + (c.toNat - 48)) 0

/-- Python `str.replace(pat, repl)`: left-to-right, non-overlapping. -/
def pyReplace (fuel : Nat) (pat repl l : List Char) : List Char :=
  match fuel with
  | 0 => l
  | fuel + 1 =>
    if pat.isPrefixOf l then repl ++ pyReplace fuel pat repl (l.drop pat.length)
    else
      match l with
      | [] => []
      | c :: t => c :: pyReplace fuel pat repl t

/-- Count of non-overlapping occurrences of a pattern in a text. -/
def countSubstr (fuel : Nat) (pat l : List Char) : Nat :=
  match fuel with
  | 0 => 0
  | fuel + 1 =>
    if pat.isPrefixOf l then 1 + countSubstr fuel pat (l.drop pat.length)
    else
      match l with
      | [] => 0
      | _ :: t => countSubstr fuel pat t

/-- Occurrence count of a pattern string inside a text string. -/
def countOcc (pat s : String) : Nat :=
  countSubstr (s.toList.length + 1) pat.toList s.toList

/-! ## The slugifier translation table

The source builds `slugify` as a `defaultdict(str)` keyed by code point:
`'_'`, `'-'`, `' '`, `'/'` map to `'-'`; each ASCII lowercase letter and
digit maps to itself; each ASCII uppercase letter maps to its lowercase;
every other code point falls back to the default `''` (removed).
`str.translate` then replaces every character by its table entry. -/
def slugify (c : Char) : List Char :=
  if c = '_' || c = '-' || c = ' ' || c = '/' then ['-']
  else if c.isLower || c.isDigit then [c]
  else if c.isUpper then [c.toLower]
  else []

/-- Python `text.translate(slugify)`. -/
def pyTranslate (l : List Char) : List Char :=
  (l.map slugify).flatten

/-! ## Simple replacement templates (source lines 20-32) -/

def codeTpl (g : List Char) : List Char :=
  "<code>".toList ++ g ++ "</code>".toList

def strike (g : List Char) : List Char :=
  "<del>".toList ++ g ++ "</del>".toList

def underline (g : List Char) : List Char :=
  "<u>".toList ++ g ++ "</u>".toList

def italics (g : List Char) : List Char :=
  "<i>".toList ++ g ++ "</i>".toList

def bold (g : List Char) : List Char :=
  "<b>".toList ++ g ++ "</b>".toList

def thematic_break : List Char := "<hr/>".toList

def quote (g : List Char) : List Char :=
  "<blockquote>".toList ++ g ++ "</blockquote>".toList

def date (g : List Char) : List Char :=
  "<span class=\"date\">".toList ++ g ++ "</span>".toList

def em_dash : List Char := "&mdash;".toList

def anchor (g : List Char) : List Char :=
  "<a href=\"".toList ++ g ++ "\">".toList ++ g ++ "</a>".toList

def reference (g1 g2 : List Char) : List Char :=
  "<a href=\"".toList ++ g2 ++ "\">".toList ++ g1 ++ "</a>".toList

def note_text (g : List Char) : List Char :=
  "<a id=\"".toList ++ g ++ "text\" href=\"#".toList ++ g
    ++ "foot\">&#91;".toList ++ g ++ "&#93;</a>".toList

def note_foot (g : List Char) : List Char :=
  "<a id=\"".toList ++ g ++ "foot\" href=\"#".toList ++ g
    ++ "text\">&#91;".toList ++ g ++ "&#93;</a>".toList

/-! ## Blob vault and the stateful transforms -/

/-- `preserve(blob)`: append the blob, return the token `\x7bindex\x7d`
for the blob's 0-based position. -/
def preserve (blob : List Char) (blobs : List (List Char)) :
    List Char × List (List Char) :=
  (lbrace :: (Nat.repr blobs.length).toList ++ [rbrace], blobs ++ [blob])

/-- `codearea(match)`: strip the captured text, size a read-only textarea by
line count and maximum line width + 1, and preserve the result.  Python's
`max` raises on the empty sequence, which happens exactly when the stripped
text has no lines; this is modelled as an error. -/
def codearea (content : List Char) (blobs : List (List Char)) :
    Except String (List Char × List (List Char)) :=
  let c := pyStrip content
  let lines := pySplitlines c
  if lines.isEmpty then .error "max() arg is an empty sequence"
  else
    let n := lines.length
    let m := (lines.map List.length).foldl Nat.max 0 + 1
    let blob := "<textarea class=\"codearea\" rows=\"".toList
      ++ (Nat.repr n).toList ++ "\" cols=\"".toList ++ (Nat.repr m).toList
      ++ "\" readonly>".toList ++ c ++ "</textarea>".toList
    .ok (preserve blob blobs)

/-- `inline(match)`: image extensions give an `img` tag; source extensions
read the file (modelled by the oracle `fs`) and render it as a preserved
code area; anything else raises.  The checks are Python
`src.lower().endswith(tuple)`, i.e. plain suffix tests. -/
def inline (fs : String → String) (title src : String)
    (blobs : List (List Char)) : Except String (String × List (List Char)) :=
  if endsWithAny (pyLower src) ["png", "jpg", "jpeg", "gif", "svg"] then
    .ok ("<img src=\"" ++ src ++ "\" title=\"" ++ title ++ "\"/>", blobs)
  else if endsWithAny (pyLower src) ["py", "js"] then
    match codearea (fs src).toList blobs with
    | .error e => .error e
    | .ok (tok, blobs') => .ok (String.mk tok, blobs')
  else
    .error ("Cannot inline <" ++ src ++ ">")

/-- `verbatim(match)`: rebuild `<tag...</tag>` and preserve it. -/
def verbatim (tag content : List Char) (blobs : List (List Char)) :
    List Char × List (List Char) :=
  preserve ('<' :: tag ++ content ++ "</".toList ++ tag ++ ['>']) blobs

/-! ## Pure replacement functions (source lines 35-85) -/

/-- `blockquote(match)` for the indentation rule. -/
def blockquote (before : Char) (text : List Char) (after : Char) : List Char :=
  (if before = '\n' then "\n<blockquote>".toList else [])
    ++ text
    ++ (if after = '\n' then "</blockquote>".toList else "\n<br/>".toList)

/-- `description(match)`: term/definition pair, un-indenting continuations. -/
def description (term inner : List Char) : List Char :=
  let inner' := pyReplace (inner.length + 1) "\n    ".toList ['\n'] inner
  "<dt>".toList ++ term ++ "</dt>\n<dd>\n".toList ++ inner' ++ "\n</dd>".toList

/-- `heading(match)`: level from the hash count, id from the slugifier. -/
def heading (hashes text : List Char) : List Char :=
  let slug := pyTranslate text
  let n := Nat.repr hashes.length
  "<h".toList ++ n.toList ++ " id=\"".toList ++ slug ++ "\">".toList
    ++ text ++ "</h".toList ++ n.toList ++ ['>']

/-- `ordered_list_item(match)`. -/
def ordered_list_item (before : Char) (text : List Char) (after : Char) :
    List Char :=
  (if before = '\n' then "\n<ol>\n".toList else [])
    ++ "<li>".toList ++ text ++ "</li>\n".toList
    ++ (if after = '\n' then "</ol>".toList else [])

/-- `paragraph(match)`: a line already starting with `<` or `\x7b` (a tag or
an unresolved blob placeholder) is left alone, otherwise it is wrapped. -/
def paragraph (line : List Char) : List Char :=
  if line.head? = some '<' || line.head? = some lbrace then line
  else "<p>".toList ++ line ++ "</p>".toList

/-- `unordered_list_item(match)`. -/
def unordered_list_item (before : Char) (text : List Char) (after : Char) :
    List Char :=
  (if before = '\n' then "\n<ul>\n".toList else [])
    ++ "<li>".toList ++ text ++ "</li>\n".toList
    ++ (if after = '\n' then "</ul>".toList else [])

/-! ## Regex machinery

Each `re.sub` pass is a left-to-right scanner: at the current position it
attempts the rule's pattern; on success it emits the replacement and resumes
after the matched text, otherwise it emits one character and advances.
Lookbehind is evaluated on the original text, tracked as the last original
character consumed (`prev`).  A matcher returns the replacement, the last
original character of the matched (consumed) text, and the unconsumed rest;
lookahead text is not consumed. -/

/-- Result of attempting a pattern at one position. -/
abbrev MRes := Option (List Char × Char × List Char)

/-- Lazy `pat+?` over arbitrary characters (`[\S\s]+?`) followed by a
closing delimiter: shortest non-empty content such that `close` follows;
returns the content and the text after the delimiter. -/
def findLazyClose (close : List Char) : List Char → List Char → Option (List Char × List Char)
  | acc, cs =>
    if acc ≠ [] && close.isPrefixOf cs then some (acc.reverse, cs.drop close.length)
    else
      match cs with
      | [] => none
      | c :: t => findLazyClose close (c :: acc) t

/-- Lazy `.+?` (no newline) followed by a closing delimiter. -/
def findLazyCloseNoNL (close : List Char) : List Char → List Char → Option (List Char × List Char)
  | acc, cs =>
    if acc ≠ [] && close.isPrefixOf cs then some (acc.reverse, cs.drop close.length)
    else
      match cs with
      | [] => none
      | c :: t => if c = '\n' then none else findLazyCloseNoNL close (c :: acc) t

/-- Lazy `[\s\S]+?` followed by a lookahead `(?=stop)`: shortest non-empty
content after which `stop` follows; `stop` is not consumed. -/
def findLazyAhead (stop : List Char) : List Char → List Char → Option (List Char × List Char)
  | acc, cs =>
    if acc ≠ [] && stop.isPrefixOf cs then some (acc.reverse, cs)
    else
      match cs with
      | [] => none
      | c :: t => findLazyAhead stop (c :: acc) t

/-- One pure substitution pass, driven by a matcher; `fuel` bounds the step
count (every step consumes at least one character, so `length + 1` is always
enough). -/
def subPure (m : Option Char → List Char → MRes) : Nat → Option Char → List Char → List Char
  | 0, _, cs => cs
  | fuel + 1, prev, cs =>
    match m prev cs with
    | some (repl, last, rest) => repl ++ subPure m fuel (some last) rest
    | none =>
      match cs with
      | [] => []
      | c :: t => c :: subPure m fuel (some c) t

/-- Run one pure pass over a whole document. -/
def runPure (m : Option Char → List Char → MRes) (l : List Char) : List Char :=
  subPure m (l.length + 1) none l

/-- `(?<=\n)([^\n]+):\n    ([\s\S]+?)(?=\n\n)` — the term line must end in
`:` (the colon must sit directly before the newline) and the greedy
`[^\n]+` makes the term everything before that final colon. -/
def tryDescription (prev : Option Char) (cs : List Char) : MRes :=
  if prev = some '\n' then
    let line := cs.takeWhile (· ≠ '\n')
    if 2 ≤ line.length && line.getLast? = some ':' then
      match cs.drop line.length with
      | '\n' :: r2 =>
        if "    ".toList.isPrefixOf r2 then
          match findLazyAhead "\n\n".toList [] (r2.drop 4) with
          | some (inner, rest) =>
            some (description line.dropLast inner, inner.getLastD ' ', rest)
          | none => none
        else none
      | _ => none
    else none
  else none

/-- `(?<=(\s|\S))\n {4,}(.+)(?=\n(\s|\S))` — greedy ` {4,}` takes all the
spaces and `.+` the rest of the line; when the line is all spaces the
quantifier gives one back so `.+` can match it. -/
def tryBlockquoteIndent (prev : Option Char) (cs : List Char) : MRes :=
  match prev, cs with
  | some b, '\n' :: t =>
    let n := (t.takeWhile (· = ' ')).length
    let rl := (t.drop n).takeWhile (· ≠ '\n')
    let parsed : Option (List Char × Nat) :=
      if 4 ≤ n && !rl.isEmpty then some (rl, 1 + n + rl.length)
      else if 5 ≤ n && rl.isEmpty then some ([' '], 1 + n)
      else none
    match parsed with
    | some (text, consumed) =>
      match cs.drop consumed with
      | '\n' :: c :: _ => some (blockquote b text c, text.getLastD ' ', cs.drop consumed)
      | _ => none
    | none => none
  | _, _ => none

/-- `(?<=(\s|\S))\n[-*] (.+)(?=\n(\s|\S))`. -/
def tryUnorderedItem (prev : Option Char) (cs : List Char) : MRes :=
  match prev, cs with
  | some b, '\n' :: m :: ' ' :: t =>
    if m = '-' || m = '*' then
      let text := t.takeWhile (· ≠ '\n')
      if text.isEmpty then none
      else
        match t.drop text.length with
        | '\n' :: c :: _ =>
          some (unordered_list_item b text c, text.getLastD ' ', t.drop text.length)
        | _ => none
    else none
  | _, _ => none

/-- `(?<=(\s|\S))\n\d+[)] (.+)(?=\n(\s|\S))`. -/
def tryOrderedItem (prev : Option Char) (cs : List Char) : MRes :=
  match prev, cs with
  | some b, '\n' :: t =>
    let ds := t.takeWhile Char.isDigit
    if ds.isEmpty then none
    else
      match t.drop ds.length with
      | ')' :: ' ' :: u =>
        let text := u.takeWhile (· ≠ '\n')
        if text.isEmpty then none
        else
          match u.drop text.length with
          | '\n' :: c :: _ =>
            some (ordered_list_item b text c, text.getLastD ' ', u.drop text.length)
          | _ => none
      | _ => none
  | _, _ => none

/-- `(?<=\n)> ([^\n]+)(?=\n)`. -/
def tryQuote (prev : Option Char) (cs : List Char) : MRes :=
  match prev, cs with
  | some '\n', '>' :: ' ' :: t =>
    let text := t.takeWhile (· ≠ '\n')
    if text.isEmpty then none
    else if (t.drop text.length).head? = some '\n' then
      some (quote text, text.getLastD ' ', t.drop text.length)
    else none
  | _, _ => none

/-- `(?<=\n)(#+) ([^\n]+)(?=\n)`. -/
def tryHeading (prev : Option Char) (cs : List Char) : MRes :=
  if prev = some '\n' then
    let hashes := cs.takeWhile (· = '#')
    if hashes.isEmpty then none
    else
      match cs.drop hashes.length with
      | ' ' :: t =>
        let text := t.takeWhile (· ≠ '\n')
        if text.isEmpty then none
        else if (t.drop text.length).head? = some '\n' then
          some (heading hashes text, text.getLastD ' ', t.drop text.length)
        else none
      | _ => none
  else none

/-- `(?<=\n)---(?=\n)`. -/
def tryHr (prev : Option Char) (cs : List Char) : MRes :=
  if prev = some '\n' && "---".toList.isPrefixOf cs && (cs.drop 3).head? = some '\n' then
    some (thematic_break, '-', cs.drop 3)
  else none

/-- `\[(\d+)\]:` (footnote definition, matched before references). -/
def tryNoteFoot (_prev : Option Char) (cs : List Char) : MRes :=
  match cs with
  | '[' :: t =>
    let ds := t.takeWhile Char.isDigit
    if ds.isEmpty then none
    else
      match t.drop ds.length with
      | ']' :: ':' :: u => some (note_foot ds, ':', u)
      | _ => none
  | _ => none

/-- `\[(\d+)\]` (footnote reference). -/
def tryNoteText (_prev : Option Char) (cs : List Char) : MRes :=
  match cs with
  | '[' :: t =>
    let ds := t.takeWhile Char.isDigit
    if ds.isEmpty then none
    else
      match t.drop ds.length with
      | ']' :: u => some (note_text ds, ']', u)
      | _ => none
  | _ => none

/-- `(?<=\n)([^\n]+)(?=\n)` with the `paragraph` transform. -/
def tryParagraph (prev : Option Char) (cs : List Char) : MRes :=
  if prev = some '\n' then
    let line := cs.takeWhile (· ≠ '\n')
    if line.isEmpty then none
    else if (cs.drop line.length).head? = some '\n' then
      some (paragraph line, line.getLastD ' ', cs.drop line.length)
    else none
  else none

/-- `delim(.+?)delim` with a wrapping template (bold, italics, underline,
strikethrough, inline code). -/
def tryWrap (delim : List Char) (tpl : List Char → List Char)
    (_prev : Option Char) (cs : List Char) : MRes :=
  if delim.isPrefixOf cs then
    match findLazyCloseNoNL delim [] (cs.drop delim.length) with
    | some (content, rest) => some (tpl content, delim.getLastD ' ', rest)
    | none => none
  else none

/-- `(?<=[\s>])(\d{4}/\d{2}/\d{2})(?=\s)`. -/
def tryDate (prev : Option Char) (cs : List Char) : MRes :=
  match prev with
  | some b =>
    if isPyWs b || b = '>' then
      match cs with
      | c1 :: c2 :: c3 :: c4 :: '/' :: c5 :: c6 :: '/' :: c7 :: c8 :: rest =>
        if [c1, c2, c3, c4, c5, c6, c7, c8].all Char.isDigit
            && (rest.head?.map isPyWs).getD false then
          some (date [c1, c2, c3, c4, '/', c5, c6, '/', c7, c8], c8, rest)
        else none
      | _ => none
    else none
  | none => none

/-- `--`. -/
def tryEmDash (_prev : Option Char) (cs : List Char) : MRes :=
  match cs with
  | '-' :: '-' :: t => some (em_dash, '-', t)
  | _ => none

/-- `<(https?://[^>]+?)>`. -/
def tryAnchor (_prev : Option Char) (cs : List Char) : MRes :=
  match cs with
  | '<' :: t =>
    let base : Option Nat :=
      if "https://".toList.isPrefixOf t then some 8
      else if "http://".toList.isPrefixOf t then some 7
      else none
    match base with
    | some n =>
      let u := t.drop n
      let inner := u.takeWhile (· ≠ '>')
      if inner.isEmpty then none
      else
        match u.drop inner.length with
        | '>' :: rest => some (anchor (t.take n ++ inner), '>', rest)
        | _ => none
    | none => none
  | _ => none

/-- `\[([^\]]+?)\]\(([^\)]+?)\)`. -/
def tryReference (_prev : Option Char) (cs : List Char) : MRes :=
  match cs with
  | '[' :: t =>
    let g1 := t.takeWhile (· ≠ ']')
    if g1.isEmpty then none
    else
      match t.drop g1.length with
      | ']' :: '(' :: u =>
        let g2 := u.takeWhile (· ≠ ')')
        if g2.isEmpty then none
        else
          match u.drop g2.length with
          | ')' :: rest => some (reference g1 g2, ')', rest)
          | _ => none
      | _ => none
  | _ => none

/-! ## Stateful substitution passes (rules that preserve blobs or read files) -/

/-- Pass for ```` ```([\S\s]+?)``` ```` with the `codearea` transform (which
can fail, and appends to the vault). -/
def subCodearea : Nat → List Char → List (List Char) →
    Except String (List Char × List (List Char))
  | 0, cs, blobs => .ok (cs, blobs)
  | fuel + 1, cs, blobs =>
    if "```".toList.isPrefixOf cs then
      match findLazyClose "```".toList [] (cs.drop 3) with
      | some (content, rest) =>
        match codearea content blobs with
        | .error e => .error e
        | .ok (tok, blobs') =>
          match subCodearea fuel rest blobs' with
          | .error e => .error e
          | .ok (out, b2) => .ok (tok ++ out, b2)
      | none =>
        match cs with
        | [] => .ok ([], blobs)
        | c :: t =>
          match subCodearea fuel t blobs with
          | .error e => .error e
          | .ok (out, b2) => .ok (c :: out, b2)
    else
      match cs with
      | [] => .ok ([], blobs)
      | c :: t =>
        match subCodearea fuel t blobs with
        | .error e => .error e
        | .ok (out, b2) => .ok (c :: out, b2)

/-- Pass for `<(tag)([\S\s]+?)</\1>` with the `verbatim` transform. -/
def subVerbatim (tag : List Char) : Nat → List Char → List (List Char) →
    List Char × List (List Char)
  | 0, cs, blobs => (cs, blobs)
  | fuel + 1, cs, blobs =>
    if ('<' :: tag).isPrefixOf cs then
      match findLazyClose ("</".toList ++ tag ++ ['>']) [] (cs.drop (tag.length + 1)) with
      | some (content, rest) =>
        let (tok, blobs') := verbatim tag content blobs
        let (out, b2) := subVerbatim tag fuel rest blobs'
        (tok ++ out, b2)
      | none =>
        match cs with
        | [] => ([], blobs)
        | c :: t =>
          let (out, b2) := subVerbatim tag fuel t blobs
          (c :: out, b2)
    else
      match cs with
      | [] => ([], blobs)
      | c :: t =>
        let (out, b2) := subVerbatim tag fuel t blobs
        (c :: out, b2)

/-- Syntactic match for `!\[([^\]]*)\]\(([^\)]+)\)`: title, source path,
unconsumed rest. -/
def matchInlineSyntax (cs : List Char) : Option (List Char × List Char × List Char) :=
  match cs with
  | '!' :: '[' :: t =>
    let title := t.takeWhile (· ≠ ']')
    match t.drop title.length with
    | ']' :: '(' :: u =>
      let src := u.takeWhile (· ≠ ')')
      if src.isEmpty then none
      else
        match u.drop src.length with
        | ')' :: rest => some (title, src, rest)
        | _ => none
    | _ => none
  | _ => none

/-- Pass for the inline-resource rule with the `inline` transform. -/
def subInline (fs : String → String) : Nat → List Char → List (List Char) →
    Except String (List Char × List (List Char))
  | 0, cs, blobs => .ok (cs, blobs)
  | fuel + 1, cs, blobs =>
    match matchInlineSyntax cs with
    | some (title, src, rest) =>
      match inline fs (String.mk title) (String.mk src) blobs with
      | .error e => .error e
      | .ok (repl, blobs') =>
        match subInline fs fuel rest blobs' with
        | .error e => .error e
        | .ok (out, b2) => .ok (repl.toList ++ out, b2)
    | none =>
      match cs with
      | [] => .ok ([], blobs)
      | c :: t =>
        match subInline fs fuel t blobs with
        | .error e => .error e
        | .ok (out, b2) => .ok (c :: out, b2)

/-! ## Python `str.format` (the final blob-resolution pass)

Modelled on CPython's parser for the field shapes that can arise here:
literal text, `\x7b\x7b`/`\x7d\x7d` escapes, `\x7bdigits\x7d` positional
fields, empty fields (automatic numbering, which may not be mixed with
manual numbering), any other field name raising `KeyError`, a lone opening
or closing brace raising `ValueError`, and an out-of-range positional index
raising `IndexError`.  Format specs (`:`/`!` suffixes) do not occur in this
pipeline and are not modelled. -/

/-- Scanner state: plain text, just after an opening brace, inside a field
(contents accumulated in reverse), or just after a closing brace. -/
inductive FmtSt : Type
  | lit : FmtSt
  | opened : FmtSt
  | field : List Char → FmtSt
  | closing : FmtSt
deriving DecidableEq

/-- Format scanner.  `mode` records whether numbering is automatic
(`some true`) or manual (`some false`); `auto` is the auto-numbering
counter. -/
def fmtGo (args : List (List Char)) : List Char → FmtSt →
    Option Bool → Nat → Except String (List Char)
  | [], .lit, _, _ => .ok []
  | [], .opened, _, _ => .error "ValueError: Single \x7b encountered in format string"
  | [], .field _, _, _ => .error "ValueError: Single \x7b encountered in format string"
  | [], .closing, _, _ => .error "ValueError: Single \x7d encountered in format string"
  | c :: t, .lit, mode, auto =>
    if c = lbrace then fmtGo args t .opened mode auto
    else if c = rbrace then fmtGo args t .closing mode auto
    else (fmtGo args t .lit mode auto).map (c :: ·)
  | c :: t, .opened, mode, auto =>
    if c = lbrace then (fmtGo args t .lit mode auto).map (lbrace :: ·)
    else if c = rbrace then
      -- empty field: automatic numbering
      if mode = some false then
        .error "ValueError: cannot switch from manual field specification to automatic field numbering"
      else if h : auto < args.length then
        (fmtGo args t .lit (some true) (auto + 1)).map (args.get ⟨auto, h⟩ ++ ·)
      else .error "IndexError: Replacement index out of range"
    else fmtGo args t (.field [c]) mode auto
  | c :: t, .field acc, mode, auto =>
    if c = rbrace then
      let fld := acc.reverse
      if fld.all Char.isDigit then
        if mode = some true then
          .error "ValueError: cannot switch from automatic field numbering to manual field specification"
        else
          let i := digitsToNat fld
          if h : i < args.length then
            (fmtGo args t .lit (some false) auto).map (args.get ⟨i, h⟩ ++ ·)
          else .error "IndexError: Replacement index out of range"
      else .error ("KeyError: " ++ String.mk fld)
    else if c = lbrace then .error "ValueError: unexpected \x7b in field name"
    else fmtGo args t (.field (c :: acc)) mode auto
  | c :: t, .closing, mode, auto =>
    if c = rbrace then (fmtGo args t .lit mode auto).map (rbrace :: ·)
    else .error "ValueError: Single \x7d encountered in format string"

/-- `text.format(*args)`. -/
def pyFormatL (l : List Char) (args : List (List Char)) : Except String (List Char) :=
  fmtGo args l .lit none 0

/-! ## The pipeline -/

/-- `markup(string)`: clear the vault, pad the document with a leading and
trailing newline, run the rules of the `rules` list (source lines 97-123) in
order, strip, resolve the blobs with `str.format`, append a newline.  `fs`
is the filesystem oracle used by the inline rule for `py`/`js` inclusion. -/
def markup (fs : String → String) (s : String) : Except String String :=
  let d0 := '\n' :: s.toList ++ ['\n']
  match subCodearea (d0.length + 1) d0 [] with
  | .error e => .error e
  | .ok (d1, b1) =>
    let (d2, b2) := subVerbatim "svg".toList (d1.length + 1) d1 b1
    let (d3, b3) := subVerbatim "pre".toList (d2.length + 1) d2 b2
    let (d4, b4) := subVerbatim "style".toList (d3.length + 1) d3 b3
    let (d5, b5) := subVerbatim "script".toList (d4.length + 1) d4 b4
    let d6 := runPure tryDescription d5
    let d7 := runPure tryBlockquoteIndent d6
    let d8 := runPure tryUnorderedItem d7
    let d9 := runPure tryOrderedItem d8
    match subInline fs (d9.length + 1) d9 b5 with
    | .error e => .error e
    | .ok (d10, b10) =>
      let d11 := runPure tryQuote d10
      let d12 := runPure tryHeading d11
      let d13 := runPure tryHr d12
      let d14 := runPure tryNoteFoot d13
      let d15 := runPure tryNoteText d14
      let d16 := runPure tryParagraph d15
      let d17 := runPure (tryWrap "**".toList bold) d16
      let d18 := runPure (tryWrap "*".toList italics) d17
      let d19 := runPure (tryWrap "__".toList underline) d18
      let d20 := runPure (tryWrap "~~".toList strike) d19
      let d21 := runPure (tryWrap "`".toList codeTpl) d20
      let d22 := runPure tryDate d21
      let d23 := runPure tryEmDash d22
      let d24 := runPure tryAnchor d23
      let d25 := runPure tryReference d24
      match pyFormatL (pyStrip d25) b10 with
      | .error e => .error e
      | .ok out => .ok (String.mk (out ++ ['\n']))

/-! ## Claim-side definitions

These follow the wording of the spec's claims (not the source); they exist
to be compared against the source-derived definitions above. -/

/-- The character mapping exactly as claim C3 words it: ASCII letters
case-folded, digits unchanged, *every whitespace character* and each of
hyphen, underscore and `/` mapping to `-`, anything else removed. -/
def slugCharClaimed (c : Char) : List Char :=
  if c.isWhitespace || c = '-' || c = '_' || c = '/' then ['-']
  else if c.isLower || c.isDigit then [c]
  else if c.isUpper then [c.toLower]
  else []

/-- Claim C3's mapping applied character by character. -/
def slugClaimed (l : List Char) : List Char :=
  (l.map slugCharClaimed).flatten

/-- The amended per-character mapping: among whitespace only the space
character maps to `-` (tab, newline, etc. are removed like any other
unsupported character); hyphen, underscore and `/` map to `-`; ASCII
letters are case-folded; digits pass through; everything else is removed. -/
def slugCharAmended (c : Char) : List Char :=
  if c = ' ' || c = '-' || c = '_' || c = '/' then ['-']
  else if c.isLower || c.isDigit then [c]
  else if c.isUpper then [c.toLower]
  else []

/-- The claims' notion of a path's extension: the part after the last dot. -/
def pathExtension (s : String) : String :=
  String.mk ((s.toList.reverse.takeWhile (· ≠ '.')).reverse)

/-! ## Theorems -/

/-- C1: a document containing the line `**bold** and *italic*` renders that
text as `<b>bold</b> and <i>italic</i>`: the bold rule is applied before the
italic rule, so the single-star match does not prematurely close the
double-star span. -/
theorem bold_before_italic :
    markup (fun _ => "") "x\n\n**bold** and *italic*\n\ny" =
      .ok "<p>x</p>\n\n<p><b>bold</b> and <i>italic</i></p>\n\n<p>y</p>\n" ∧
    countOcc "<b>bold</b> and <i>italic</i>"
      "<p>x</p>\n\n<p><b>bold</b> and <i>italic</i></p>\n\n<p>y</p>\n" = 1 := by
  decide

/-- C2: a fenced code block containing the markdown-special characters `**`,
`#` and `[1]` is rendered unchanged inside its `textarea` container: the
block becomes a `\x7b0\x7d` placeholder that no later rule rewrites (in
particular `paragraph` leaves lines starting with a brace untouched) and is
substituted back only in the final resolution pass. -/
theorem fenced_code_isolated :
    markup (fun _ => "") "```\n**not bold** # [1]\n```" =
      .ok "<textarea class=\"codearea\" rows=\"1\" cols=\"19\" readonly>**not bold** # [1]</textarea>\n" ∧
    countOcc "**not bold** # [1]"
      "<textarea class=\"codearea\" rows=\"1\" cols=\"19\" readonly>**not bold** # [1]</textarea>\n" = 1 ∧
    paragraph "\x7b0\x7d".toList = "\x7b0\x7d".toList := by
  decide

/-- C8: three consecutive `- item` lines surrounded by blank lines produce
exactly one `<ul>`, three `<li>` items, and one `</ul>`: the container opens
at the item preceded by a blank line and closes at the item followed by one,
and the interior item does neither. -/
theorem list_grouping_single_container :
    markup (fun _ => "") "x\n\n- one\n- two\n- three\n\ny" =
      .ok "<p>x</p>\n\n<ul>\n<li>one</li>\n<li>two</li>\n<li>three</li>\n</ul>\n\n<p>y</p>\n" ∧
    countOcc "<ul>"
      "<p>x</p>\n\n<ul>\n<li>one</li>\n<li>two</li>\n<li>three</li>\n</ul>\n\n<p>y</p>\n" = 1 ∧
    countOcc "<li>"
      "<p>x</p>\n\n<ul>\n<li>one</li>\n<li>two</li>\n<li>three</li>\n</ul>\n\n<p>y</p>\n" = 3 ∧
    countOcc "</ul>"
      "<p>x</p>\n\n<ul>\n<li>one</li>\n<li>two</li>\n<li>three</li>\n</ul>\n\n<p>y</p>\n" = 1 := by
  decide

/-- C9: a document containing `text[1]` and, on another line, `[1]: source`
produces two anchors whose ids cross-reference each other (`1text` with href
`#1foot`, and `1foot` with href `#1text`); the definition marker (with the
colon) is matched before the reference marker. -/
theorem footnote_cross_reference :
    markup (fun _ => "") "text[1]\n\n[1]: source" =
      .ok "<p>text<a id=\"1text\" href=\"#1foot\">&#91;1&#93;</a></p>\n\n<a id=\"1foot\" href=\"#1text\">&#91;1&#93;</a> source\n" ∧
    countOcc "<a id=\"1text\" href=\"#1foot\">"
      "<p>text<a id=\"1text\" href=\"#1foot\">&#91;1&#93;</a></p>\n\n<a id=\"1foot\" href=\"#1text\">&#91;1&#93;</a> source\n" = 1 ∧
    countOcc "<a id=\"1foot\" href=\"#1text\">"
      "<p>text<a id=\"1text\" href=\"#1foot\">&#91;1&#93;</a></p>\n\n<a id=\"1foot\" href=\"#1text\">&#91;1&#93;</a> source\n" = 1 := by
  decide

/-- C10: a fenced code block whose content is all whitespace strips to the
empty string, so the code-area transform hits Python `max` on an empty
sequence of line widths and conversion raises instead of producing output. -/
theorem whitespace_fence_raises :
    markup (fun _ => "") "```\n   \n```" = .error "max() arg is an empty sequence" := by
  decide

/-- C3 counterexample: the heading text `a<TAB>b` contains a whitespace
character (tab) that the Slugifier deletes rather than mapping to `-`: the
produced id is `ab`, while the claim's character-by-character mapping gives
`a-b`. -/
theorem slugifier_whitespace_counterexample :
    pyTranslate "a\tb".toList = "ab".toList ∧
    slugClaimed "a\tb".toList = "a-b".toList ∧
    pyTranslate "a\tb".toList ≠ slugClaimed "a\tb".toList ∧
    markup (fun _ => "") "# a\tb" = .ok "<h1 id=\"ab\">a\tb</h1>\n" := by
  decide

/-- C4 counterexample: `a.apng` has extension `apng`, which is in neither
the image set nor the source set, yet conversion does not raise: the code
tests `endswith("png", ...)` without a dot, so the image branch fires and an
image tag is emitted. -/
theorem unsupported_extension_counterexample :
    pathExtension "a.apng" = "apng" ∧
    "apng" ∉ ["png", "jpg", "jpeg", "gif", "svg"] ∧
    "apng" ∉ ["py", "js"] ∧
    inline (fun _ => "") "x" "a.apng" [] = .ok ("<img src=\"a.apng\" title=\"x\"/>", []) ∧
    markup (fun _ => "") "![x](a.apng)" = .ok "<img src=\"a.apng\" title=\"x\"/>\n" := by
  decide

/-- C5 counterexample: `b.xjpg` has extension `xjpg`, not in the image set,
yet the resolver takes the image branch because the lowercased path merely
ends with the characters `jpg`. -/
theorem image_extension_counterexample :
    pathExtension "b.xjpg" = "xjpg" ∧
    "xjpg" ∉ ["png", "jpg", "jpeg", "gif", "svg"] ∧
    inline (fun _ => "") "t" "b.xjpg" [] = .ok ("<img src=\"b.xjpg\" title=\"t\"/>", []) := by
  decide

/-- C6 counterexample: the author-typed literal `\x7b0\x7d` collides with
the vault's placeholder tokens: with one fenced block preserved, final
resolution substitutes the preserved fragment for the literal `\x7b0\x7d` as
well, so the textarea appears twice although the document has one fence. -/
theorem literal_placeholder_counterexample :
    markup (fun _ => "") "\x7b0\x7d hi\n\n```\ncode\n```" =
      .ok "<textarea class=\"codearea\" rows=\"1\" cols=\"5\" readonly>code</textarea> hi\n\n<textarea class=\"codearea\" rows=\"1\" cols=\"5\" readonly>code</textarea>\n" ∧
    countOcc "<textarea"
      "<textarea class=\"codearea\" rows=\"1\" cols=\"5\" readonly>code</textarea> hi\n\n<textarea class=\"codearea\" rows=\"1\" cols=\"5\" readonly>code</textarea>\n" = 2 := by
  decide

/-- C6 amended: a literal `\x7bN\x7d` typed by the author is not inert — it
is treated exactly like a placeholder token at final resolution: it is
substituted by the N-th preserved fragment when one exists, and conversion
fails with an index error when it does not. -/
theorem literal_placeholder_resolved :
    markup (fun _ => "") "\x7b0\x7d hi\n\n```\ncode\n```" =
      .ok "<textarea class=\"codearea\" rows=\"1\" cols=\"5\" readonly>code</textarea> hi\n\n<textarea class=\"codearea\" rows=\"1\" cols=\"5\" readonly>code</textarea>\n" ∧
    markup (fun _ => "") "\x7b7\x7d" = .error "IndexError: Replacement index out of range" := by
  decide

/-- The source's translation table and the amended per-character mapping
agree on every character. -/
theorem slugify_eq_amended (c : Char) : slugify c = slugCharAmended c := by
  by_cases h1 : c = '_' <;> by_cases h2 : c = '-' <;> by_cases h3 : c = ' ' <;>
    by_cases h4 : c = '/' <;> simp [slugify, slugCharAmended, h1, h2, h3, h4]

/-- C3 amended: for every heading text, the Slugifier's id is obtained
character by character: ASCII letters case-folded to lowercase, digits
unchanged, the space character (not all whitespace) and each of hyphen,
underscore and `/` mapped to `-`, and every other character (tab and other
non-space whitespace included) removed entirely. -/
theorem slugifier_charwise (text : List Char) :
    pyTranslate text = (text.map slugCharAmended).flatten := by
  induction text with
  | nil => rfl
  | cons c t ih =>
    simp only [pyTranslate, List.map_cons, List.flatten_cons] at *
    rw [slugify_eq_amended c, ih]

/-- C4 amended: the inline resolver raises the unresolvable-reference error
(whose message names the offending path, and no HTML is emitted) exactly for
paths whose lowercased text ends with none of the strings `png`, `jpg`,
`jpeg`, `gif`, `svg`, `py`, `js` — a plain suffix comparison, not an
extension comparison. -/
theorem unsupported_suffix_errors (fs : String → String) (title src : String)
    (blobs : List (List Char))
    (h1 : endsWithAny (pyLower src) ["png", "jpg", "jpeg", "gif", "svg"] = false)
    (h2 : endsWithAny (pyLower src) ["py", "js"] = false) :
    inline fs title src blobs = .error ("Cannot inline <" ++ src ++ ">") := by
  simp [inline, h1, h2]

/-- C4 witness: `![x](file.pdf)` raises the error naming the path. -/
theorem unsupported_suffix_errors_witness :
    inline (fun _ => "") "x" "file.pdf" [] = .error "Cannot inline <file.pdf>" := by
  rw [unsupported_suffix_errors (fun _ => "") "x" "file.pdf" [] (by decide) (by decide)]
  rfl

/-- A successful `codearea` always appends one blob to the vault. -/
theorem codearea_ok_blobs (c : List Char) (blobs : List (List Char))
    (t : List Char) (b' : List (List Char))
    (h : codearea c blobs = .ok (t, b')) : blobs.length < b'.length := by
  unfold codearea at h
  by_cases he : (pySplitlines (pyStrip c)).isEmpty
  · simp [he] at h
  · simp only [he, if_neg, Bool.false_eq_true, not_false_eq_true, preserve,
      Except.ok.injEq, Prod.mk.injEq] at h
    obtain ⟨-, h2⟩ := h
    subst h2
    simp

/-- C5 amended: the resolver takes the image branch — producing an image tag
with `src` and `title` attributes, title verbatim — exactly when the
lowercased path ends with one of the strings `png`, `jpg`, `jpeg`, `gif`,
`svg` (a suffix comparison, not an extension comparison), and for no other
path. -/
theorem image_branch_iff_suffix (fs : String → String) (title src : String)
    (blobs : List (List Char)) :
    endsWithAny (pyLower src) ["png", "jpg", "jpeg", "gif", "svg"] = true ↔
      inline fs title src blobs =
        .ok ("<img src=\"" ++ src ++ "\" title=\"" ++ title ++ "\"/>", blobs) := by
  constructor
  · intro h
    simp [inline, h]
  · intro h
    by_cases h1 : endsWithAny (pyLower src) ["png", "jpg", "jpeg", "gif", "svg"] = true
    · exact h1
    · exfalso
      simp only [inline, h1, Bool.false_eq_true, if_neg, not_false_eq_true] at h
      by_cases h2 : endsWithAny (pyLower src) ["py", "js"] = true
      · simp only [h2, if_pos] at h
        cases hc : codearea (fs src).toList blobs with
        | error e => rw [hc] at h; cases h
        | ok p =>
          obtain ⟨tok, b'⟩ := p
          rw [hc] at h
          simp only [Except.ok.injEq, Prod.mk.injEq] at h
          have hlt := codearea_ok_blobs _ _ _ _ hc
          rw [h.2] at hlt
          exact lt_irrefl _ hlt
      · simp [h2] at h

/-- C5 witness: `pic.PNG` ends (case-insensitively) with `png` and yields
the image tag. -/
theorem image_branch_iff_suffix_witness :
    inline (fun _ => "") "t" "pic.PNG" [] = .ok ("<img src=\"pic.PNG\" title=\"t\"/>", []) := by
  have h := (image_branch_iff_suffix (fun _ => "") "t" "pic.PNG" []).mp (by decide)
  exact h

/-! ### Lemmas about the final resolution pass, for claim C7 -/

/-- A digit character is neither brace. -/
theorem digit_not_brace {c : Char} (h : c.isDigit = true) :
    c ≠ lbrace ∧ c ≠ rbrace := by
  constructor <;> intro he <;> subst he <;> exact absurd h (by decide)

/-- Scanner step: an opening brace in literal state. -/
theorem fmtGo_lit_lbrace (args : List (List Char)) (t : List Char)
    (mode : Option Bool) (auto : Nat) :
    fmtGo args (lbrace :: t) .lit mode auto = fmtGo args t .opened mode auto := by
  simp [fmtGo]

/-- Scanner step: an ordinary character in literal state is emitted. -/
theorem fmtGo_lit_step (args : List (List Char)) {c : Char} (t : List Char)
    (mode : Option Bool) (auto : Nat) (h1 : c ≠ lbrace) (h2 : c ≠ rbrace) :
    fmtGo args (c :: t) .lit mode auto =
      (fmtGo args t .lit mode auto).map (c :: ·) := by
  simp [fmtGo, h1, h2]

/-- Scanner step: the first character of a field. -/
theorem fmtGo_opened_step (args : List (List Char)) {c : Char} (t : List Char)
    (mode : Option Bool) (auto : Nat) (h1 : c ≠ lbrace) (h2 : c ≠ rbrace) :
    fmtGo args (c :: t) .opened mode auto =
      fmtGo args t (.field [c]) mode auto := by
  simp [fmtGo, h1, h2]

/-- Scanner step: a further character of a field is accumulated. -/
theorem fmtGo_field_step (args : List (List Char)) {c : Char} (t acc : List Char)
    (mode : Option Bool) (auto : Nat) (h1 : c ≠ lbrace) (h2 : c ≠ rbrace) :
    fmtGo args (c :: t) (.field acc) mode auto =
      fmtGo args t (.field (c :: acc)) mode auto := by
  simp [fmtGo, h1, h2]

/-- Closing a field whose name is a digit string indexing past the vault
raises the index error (when numbering has not been switched to automatic,
which literal text never does). -/
theorem fmtGo_field_close_oob (args : List (List Char)) (t acc : List Char)
    (mode : Option Bool) (auto : Nat)
    (hall : acc.reverse.all Char.isDigit = true)
    (hmode : mode ≠ some true)
    (hlen : args.length ≤ digitsToNat acc.reverse) :
    fmtGo args (rbrace :: t) (.field acc) mode auto =
      .error "IndexError: Replacement index out of range" := by
  have h1 : ¬ (digitsToNat acc.reverse < args.length) := by omega
  simp [fmtGo, hall, hmode, h1]

/-- Closing a field whose name is not a digit string raises the key error. -/
theorem fmtGo_field_close_nondigit (args : List (List Char)) (t acc : List Char)
    (mode : Option Bool) (auto : Nat)
    (hall : acc.reverse.all Char.isDigit = false) :
    fmtGo args (rbrace :: t) (.field acc) mode auto =
      .error ("KeyError: " ++ String.mk acc.reverse) := by
  simp [fmtGo, hall]

/-- Literal (brace-free) text before the rest of the format string is
emitted verbatim and changes no scanner state. -/
theorem fmtGo_lit_append (args : List (List Char)) (pre rest : List Char)
    (mode : Option Bool) (auto : Nat)
    (h : ∀ c ∈ pre, c ≠ lbrace ∧ c ≠ rbrace) :
    fmtGo args (pre ++ rest) .lit mode auto =
      (fmtGo args rest .lit mode auto).map (pre ++ ·) := by
  induction pre with
  | nil =>
    simp only [List.nil_append]
    cases fmtGo args rest .lit mode auto <;> rfl
  | cons c p ih =>
    obtain ⟨hc1, hc2⟩ := h c (by simp)
    have ih' := ih (fun d hd => h d (by simp [hd]))
    rw [List.cons_append, fmtGo_lit_step args (p ++ rest) mode auto hc1 hc2, ih']
    cases fmtGo args rest .lit mode auto <;> rfl

/-- Inside a field, a run of digits is accumulated (in reverse). -/
theorem fmtGo_field_digits (args : List (List Char)) (ds : List Char)
    (acc post : List Char) (mode : Option Bool) (auto : Nat)
    (h : ∀ c ∈ ds, c.isDigit = true) :
    fmtGo args (ds ++ rbrace :: post) (.field acc) mode auto =
      fmtGo args (rbrace :: post) (.field (ds.reverse ++ acc)) mode auto := by
  induction ds generalizing acc with
  | nil => simp
  | cons c dtl ih =>
    obtain ⟨hc1, hc2⟩ := digit_not_brace (h c (by simp))
    have ih' := ih (c :: acc) (fun d hd => h d (by simp [hd]))
    rw [List.cons_append, fmtGo_field_step args (dtl ++ rbrace :: post) acc mode auto hc1 hc2,
      ih', List.reverse_cons, List.append_assoc, List.singleton_append]

/-- A brace token made of digits whose index is not in the vault makes the
scanner raise the index error. -/
theorem fmtGo_digit_token_oob (args : List (List Char)) (ds post : List Char)
    (mode : Option Bool) (auto : Nat)
    (hne : ds ≠ []) (hd : ∀ c ∈ ds, c.isDigit = true)
    (hmode : mode ≠ some true) (hlen : args.length ≤ digitsToNat ds) :
    fmtGo args (lbrace :: (ds ++ rbrace :: post)) .lit mode auto =
      .error "IndexError: Replacement index out of range" := by
  obtain ⟨c, dtl, rfl⟩ : ∃ c dtl, ds = c :: dtl := by
    cases ds with
    | nil => exact absurd rfl hne
    | cons c dtl => exact ⟨c, dtl, rfl⟩
  obtain ⟨hc1, hc2⟩ := digit_not_brace (hd c (by simp))
  have hfld : (dtl.reverse ++ [c]).reverse = c :: dtl := by simp
  rw [fmtGo_lit_lbrace, List.cons_append,
    fmtGo_opened_step args (dtl ++ rbrace :: post) mode auto hc1 hc2,
    fmtGo_field_digits args dtl [c] post mode auto (fun d hd2 => hd d (by simp [hd2])),
    fmtGo_field_close_oob args post (dtl.reverse ++ [c]) mode auto
      (by rw [hfld]; simp only [List.all_eq_true]; exact fun d hd2 => hd d hd2)
      hmode (by rw [hfld]; exact hlen)]

/-- A brace token whose field is the single non-digit letter `x` makes the
scanner raise the key error. -/
theorem fmtGo_malformed_token (args : List (List Char)) (post : List Char)
    (mode : Option Bool) (auto : Nat) :
    fmtGo args (lbrace :: 'x' :: rbrace :: post) .lit mode auto =
      .error "KeyError: x" := by
  rw [fmtGo_lit_lbrace,
    fmtGo_opened_step args (rbrace :: post) mode auto (by decide) (by decide),
    fmtGo_field_close_nondigit args post ['x'] mode auto (by decide)]
  rfl

/-- C7: if the document reaching final resolution contains (after any run of
brace-free text) a `\x7bi\x7d` token whose index `i` was never preserved in
the vault, or a token with malformed (non-digit) index syntax, resolution
raises an error rather than silently dropping the token or emitting literal
braces. -/
theorem unresolved_or_malformed_token_fails (pre post : List Char)
    (args : List (List Char)) (ds : List Char)
    (hpre : ∀ c ∈ pre, c ≠ lbrace ∧ c ≠ rbrace)
    (hne : ds ≠ []) (hd : ∀ c ∈ ds, c.isDigit = true)
    (hlen : args.length ≤ digitsToNat ds) :
    (∃ e, pyFormatL (pre ++ lbrace :: (ds ++ rbrace :: post)) args = .error e) ∧
    (∃ e, pyFormatL (pre ++ lbrace :: 'x' :: rbrace :: post) args = .error e) := by
  unfold pyFormatL
  constructor
  · refine ⟨"IndexError: Replacement index out of range", ?_⟩
    rw [fmtGo_lit_append args pre _ none 0 hpre,
      fmtGo_digit_token_oob args ds post none 0 hne hd (by simp) hlen]
    rfl
  · refine ⟨"KeyError: x", ?_⟩
    rw [fmtGo_lit_append args pre _ none 0 hpre,
      fmtGo_malformed_token args post none 0]
    rfl

/-- C7 witness: with an empty vault, `a\x7b0\x7db` and `a\x7bx\x7db` both
make resolution fail. -/
theorem unresolved_or_malformed_token_fails_witness :
    (∃ e, pyFormatL "a\x7b0\x7db".toList [] = .error e) ∧
    (∃ e, pyFormatL "a\x7bx\x7db".toList [] = .error e) := by
  have h := unresolved_or_malformed_token_fails ['a'] ['b'] [] ['0']
    (by decide) (by decide) (by decide) (by decide)
  exact h

end Markup
